import Mathlib

/-
Verification of the batching / weighting / prediction core of
`deepbgc/models/rnn.py` (class `KerasRNN` and its module-level helpers).

Shallow embedding conventions:
  * a pandas DataFrame of protein-domain vectors is a `List (List ℚ)`
    (rows of width F); a label Series is a `List ℚ`;
  * numpy float64 values arising in the automatic weight computation are
    modelled by `NpFloat` (finite rationals, the two infinities and NaN),
    because numpy division by zero yields inf/NaN instead of raising;
  * Python exceptions raised by `fit` are modelled by `Except FitError`;
  * Python's dynamic typing of the `X_list` / `y_list` arguments is
    modelled by `PyList`, so that a non-list argument is representable;
  * `np.random` shuffling is not embedded: the generator is modelled on
    the (possibly already permuted) sample list, i.e. the `shuffle=False`
    path; the shuffled path is the same function applied to a permuted
    list (the same permutation is applied to `X_arr` and `y_arr`).
-/

namespace DeepBGC

/-- numpy float64 values produced by the `weighted` branch of `fit`:
finite rationals, the infinities and NaN. -/
inductive NpFloat where
  | finite (q : ℚ)
  | inf
  | negInf
  | nan
deriving DecidableEq

/-- IEEE-style addition as performed by `np.sum` on float64 values. -/
def npAdd : NpFloat → NpFloat → NpFloat
  | .nan, _ => .nan
  | _, .nan => .nan
  | .inf, .negInf => .nan
  | .negInf, .inf => .nan
  | .inf, _ => .inf
  | _, .inf => .inf
  | .negInf, _ => .negInf
  | _, .negInf => .negInf
  | .finite a, .finite b => .finite (a + b)

/-- IEEE-style division as performed by numpy on float64 values: division of
a nonzero finite value by zero yields a signed infinity (with only a
RuntimeWarning), and 0/0 yields NaN. -/
def npDiv : NpFloat → NpFloat → NpFloat
  | .nan, _ => .nan
  | _, .nan => .nan
  | .finite a, .finite b =>
      if b ≠ 0 then .finite (a / b)
      else if 0 < a then .inf
      else if a < 0 then .negInf
      else .nan
  | .inf, .finite b => if b < 0 then .negInf else .inf
  | .negInf, .finite b => if b < 0 then .inf else .negInf
  | .finite _, .inf => .finite 0
  | .finite _, .negInf => .finite 0
  | .inf, .inf => .nan
  | .inf, .negInf => .nan
  | .negInf, .inf => .nan
  | .negInf, .negInf => .nan

/-- `np.mean(y == klass)`: the fraction of entries of `y` equal to `klass`;
NaN on an empty array (numpy emits a RuntimeWarning and returns NaN). -/
def npMean (y : List ℚ) (klass : ℚ) : NpFloat :=
  if y.length = 0 then .nan else .finite ((y.count klass : ℚ) / (y.length : ℚ))

/-- `np.sum` over a Python list of float64 values. -/
def npSum (l : List NpFloat) : NpFloat := l.foldr npAdd (.finite 0)

/-- Embedding of `_count_samples(y_list, klass)` (rnn.py line 399):
`np.sum([np.mean(y == klass) for y in y_list])` — each sequence contributes
its per-sequence fraction of entries equal to `klass`, not a raw count. -/
def countSamples (y_list : List (List ℚ)) (klass : ℚ) : NpFloat :=
  npSum (y_list.map (fun y => npMean y klass))

/-- `rotate(l, n)` (rnn.py line 267): `m = n % len(l); return l[m:] + l[:m]`.
Python `%` on a positive modulus agrees with `Int.emod`. -/
def rotate {α : Type} (l : List α) (n : ℤ) : List α :=
  let m := (n % (l.length : ℤ)).toNat
  List.drop m l ++ List.take m l

/-- Ceiling division on naturals: `int(np.ceil(a / b))` for nonnegative
integers `a` and positive `b` (exact, no floating-point rounding). -/
def ceilDiv (a b : ℕ) : ℕ := (a + b - 1) / b

/-- `keras.preprocessing.sequence.pad_sequences(·, maxlen, padding='post',
truncating='post')` applied to one sequence: truncate at the tail to
`maxlen`, then append `pad` entries up to length `maxlen`. -/
def padPost {α : Type} (pad : α) (maxlen : ℕ) (s : List α) : List α :=
  s.take maxlen ++ List.replicate (maxlen - s.length) pad

/-- Group sizes used by `np.array_split(l, C)`: the first `l % C` groups have
size `l / C + 1`, the remaining groups have size `l / C`. -/
def splitSizes (n C : ℕ) : List ℕ :=
  (List.range C).map (fun i => if i < n % C then n / C + 1 else n / C)

/-- Cut a list into consecutive pieces of the given sizes. -/
def takeDrops {α : Type} : List ℕ → List α → List (List α)
  | [], _ => []
  | s :: ss, l => l.take s :: takeDrops ss (l.drop s)

/-- `np.array_split(l, C)`: split `l` into `C` contiguous groups whose sizes
are given by `splitSizes`. -/
def arraySplit {α : Type} (C : ℕ) (l : List α) : List (List α) :=
  takeDrops (splitSizes l.length C) l

/-- One epoch of batches produced by the generator of `_build_generator`,
together with the returned batch count. A batch is a pair of the feature
tensor (batch_size × timesteps × input_size) and the label tensor
(batch_size × timesteps × 1), in emission order. -/
structure GenOutput where
  numBatches : ℕ
  batches : List (List (List (List ℚ)) × List (List (List ℚ)))
deriving DecidableEq

/-- Embedding of `_build_generator(X_list, y_list, batch_size, timesteps, input_size, …)`
(rnn.py lines 333-397), modelled on the `shuffle=False` path (see header).
`none` models the `(_noop, None)` return for an empty sample list.
Otherwise the samples are split into `batch_size` contiguous chunk groups
(`np.array_split`), each group's samples are concatenated into one chunk
sequence, each chunk sequence is post-padded with zeros / post-truncated to
`maxlen = num_batches * timesteps` (`pad_sequences`), and the reshape +
`swapaxes(0, 1)` turn lane `c` of batch `b` into timesteps
`b*timesteps … (b+1)*timesteps - 1` of padded chunk `c`.  The final reshape
views each label scalar as a length-1 vector (the trailing `1` axis). -/
def buildGenerator (X_list : List (List (List ℚ))) (y_list : List (List ℚ))
    (batch_size timesteps input_size : ℕ) : Option GenOutput :=
  if X_list.isEmpty then none
  else
    let seq_length := (X_list.map List.length).sum
    let num_batches := ceilDiv (ceilDiv seq_length batch_size) timesteps
    let maxlen := num_batches * timesteps
    let Xpadded := (arraySplit batch_size X_list).map
      (fun chunk => padPost (List.replicate input_size 0) maxlen chunk.flatten)
    let ypadded := (arraySplit batch_size y_list).map
      (fun chunk => (padPost 0 maxlen chunk.flatten).map (fun v => [v]))
    some {
      numBatches := num_batches
      batches := (List.range num_batches).map (fun b =>
        (Xpadded.map (fun lane => (lane.drop (b * timesteps)).take timesteps),
         ypadded.map (fun lane => (lane.drop (b * timesteps)).take timesteps)))
    }

/-- Embedding of `_repeat_all_to_fill_batch_size(X_sequences, y_sequences, batch_size)`
(rnn.py lines 308-331): concatenate all validation sequences
(`pd.concat`), then write that single concatenated sequence into every one
of the `batch_size` rows of a zero-initialised tensor; the label column is
written into column 0 of a (batch_size, M, 1) tensor. -/
def repeatAllToFillBatchSize (X_sequences : List (List (List ℚ)))
    (y_sequences : List (List ℚ)) (batch_size : ℕ) :
    List (List (List ℚ)) × List (List (List ℚ)) :=
  let X_concat := X_sequences.flatten
  let y_concat := y_sequences.flatten
  ((List.range batch_size).map (fun _ => X_concat),
   (List.range batch_size).map (fun _ => y_concat.map (fun v => [v])))

/-- A Python argument that is either an actual list or some other value,
remembering `str(type(v))`-style information for the error message. -/
inductive PyList (α : Type) where
  | isList (l : List α)
  | notList (typeName : String)
deriving DecidableEq

/-- Python type name of a `fit` argument as formatted (via `str(type(v))`)
into the error messages. -/
def pyTypeName {α : Type} : PyList α → String
  | .isList _ => "list"
  | .notList t => t

/-- Exceptions that the embedded part of `fit` can raise. -/
inductive FitError where
  | attributeError (msg : String)
  | valueError (msg : String)
  | indexError
deriving DecidableEq

/-- Python truthiness of the `positive_weight` argument (`if positive_weight:`):
`None`, `0` and `0.0` are falsy, every other number is truthy. -/
def pyTruthy : Option ℚ → Bool
  | none => false
  | some q => q != 0

/-- `fit` (rnn.py lines 128-146) up to the point where the Keras models are
built: the `isinstance` checks on `X_list` and `y_list` (lines 128-132), the
`weighted` branch with its mutual-exclusion check and automatic weight
`num_neg / num_pos` (lines 134-141, numpy float division), and the
`input_size = X_list[0].shape[1]` access (line 143), which raises IndexError
on an empty sample list.  `.ok (input_size, positive_weight)` means `fit`
passed all of these and proceeds to build the models (line 145); `.error e`
models the exception raised before any model construction.  The first
component of a sample (`X0.headD []`).length stands for `X0.shape[1]`, the
DataFrame's column count.  Note the source's line 132 formats `type(X_list)`
(not `type(y_list)`) into the second message; this quirk is kept. -/
def fitCheck (X_list : PyList (List (List ℚ))) (y_list : PyList (List ℚ))
    (weighted : Bool) (positive_weight : Option ℚ) :
    Except FitError (ℕ × Option NpFloat) :=
  match X_list with
  | .notList t => .error (.attributeError ("Expected X_list to be list, got " ++ t))
  | .isList X =>
    match y_list with
    | .notList _ =>
      .error (.attributeError ("Expected y_list to be list, got " ++ pyTypeName X_list))
    | .isList y =>
      let pwEff : Except FitError (Option NpFloat) :=
        if weighted then
          if pyTruthy positive_weight then
            .error (.valueError "Positive weight cannot be specified together with weighted=true")
          else
            .ok (some (npDiv (countSamples y 0) (countSamples y 1)))
        else
          .ok (positive_weight.map NpFloat.finite)
      match pwEff with
      | .error e => .error e
      | .ok pw =>
        match X with
        | [] => .error .indexError
        | X0 :: _ => .ok ((X0.headD []).length, pw)

/-- The Keras stateful model abstracted as a capability interface (spec §9):
a deterministic forward pass `step` from a recurrent state and an input
batch to the per-position scores and the successor state, the zero state
that `reset_states()` installs, and the current recurrent state. -/
structure StatefulModel (σ : Type) where
  step : σ → List (List ℚ) → List ℚ × σ
  zeroState : σ
  state : σ

/-- `model.reset_states()`: reset the recurrent state to zero. -/
def resetStates {σ : Type} (m : StatefulModel σ) : StatefulModel σ :=
  { m with state := m.zeroState }

/-- The `KerasRNN` wrapper's state relevant to `predict`: the
inference-shaped model, or `none` before any training. -/
structure KerasRNN (σ : Type) where
  model : Option (StatefulModel σ)

/-- `KerasRNN.predict(X)` (rnn.py lines 221-237) for a 2-dimensional input
(the rank is enforced by the embedding's type): raise before training;
otherwise reset the recurrent state to zero (line 235), run one forward
pass on the state just reset, and return the per-position scores together
with the wrapper holding the model's post-call recurrent state. -/
def predict {σ : Type} (self : KerasRNN σ) (X : List (List ℚ)) :
    Except FitError (List ℚ × KerasRNN σ) :=
  match self.model with
  | none => .error (.attributeError "Cannot predict using untrained model")
  | some m =>
    let m' := resetStates m
    let out := m'.step m'.state X
    .ok (out.1, ⟨some { m' with state := out.2 }⟩)

/-- A concrete deterministic stateful model for the predict witness: the
scores are copies of the current recurrent state, the post-call state is
unchanged, and the initial state 7 differs from the zero state. -/
def constModel : StatefulModel ℚ where
  step := fun s X => (X.map (fun _ => s), s)
  zeroState := 0
  state := 7

theorem padPost_length {α : Type} (pad : α) (maxlen : ℕ) (s : List α) :
    (padPost pad maxlen s).length = maxlen := by
  simp [padPost]
  omega

theorem flatten_windows {α : Type} (T : ℕ) :
    ∀ (n : ℕ) (l : List α), l.length = n * T →
      ((List.range n).map (fun b => (l.drop (b * T)).take T)).flatten = l := by
  intro n
  induction n with
  | zero =>
    intro l hl
    simp only [Nat.zero_mul] at hl
    simp [List.length_eq_zero.mp hl]
  | succ k ih =>
    intro l hl
    have hlen : (l.drop T).length = k * T := by
      simp only [List.length_drop, hl, Nat.succ_mul]
      omega
    have hmap : (List.map Nat.succ (List.range k)).map
          (fun b => (l.drop (b * T)).take T)
        = (List.range k).map (fun b => ((l.drop T).drop (b * T)).take T) := by
      rw [List.map_map]
      apply List.map_congr_left
      intro b _
      simp only [Function.comp_apply, List.drop_drop]
      have h2 : Nat.succ b * T = T + b * T := by
        rw [Nat.succ_mul]
        omega
      rw [h2]
    rw [List.range_succ_eq_map, List.map_cons, List.flatten_cons, hmap, ih _ hlen]
    simp [List.take_append_drop]

theorem takeDrops_length {α : Type} (ss : List ℕ) :
    ∀ (l : List α), (takeDrops ss l).length = ss.length := by
  induction ss with
  | nil => intro l; rfl
  | cons s t ih => intro l; simp [takeDrops, ih]

theorem takeDrops_map_length {α : Type} (ss : List ℕ) :
    ∀ (l : List α), ss.sum ≤ l.length →
      (takeDrops ss l).map List.length = ss := by
  induction ss with
  | nil => intro l _; rfl
  | cons s t ih =>
    intro l h
    simp only [List.sum_cons] at h
    have h1 : (l.take s).length = s := by
      simp [List.length_take]
      omega
    have h2 : t.sum ≤ (l.drop s).length := by
      simp [List.length_drop]
      omega
    rw [takeDrops, List.map_cons, h1, ih (l.drop s) h2]

theorem splitSizes_length (n C : ℕ) : (splitSizes n C).length = C := by
  simp [splitSizes]

theorem range_map_if_sum (q r : ℕ) :
    ∀ (C : ℕ), ((List.range C).map (fun i => if i < r then q + 1 else q)).sum
      = C * q + min r C := by
  intro C
  induction C with
  | zero => simp
  | succ k ih =>
    rw [List.range_succ, List.map_append, List.sum_append, ih, Nat.succ_mul]
    by_cases h : k < r <;> simp [h] <;> omega

theorem splitSizes_sum (n C : ℕ) (hC : 0 < C) : (splitSizes n C).sum = n := by
  rw [splitSizes, range_map_if_sum]
  have h1 : n % C < C := Nat.mod_lt _ hC
  have h2 := Nat.div_add_mod n C
  omega

theorem splitSizes_mem {n C s : ℕ} (h : s ∈ splitSizes n C) :
    s = n / C ∨ s = n / C + 1 := by
  simp only [splitSizes, List.mem_map, List.mem_range] at h
  obtain ⟨i, _, hi⟩ := h
  by_cases hlt : i < n % C
  · right
    rw [← hi]
    simp [hlt]
  · left
    rw [← hi]
    simp [hlt]

theorem arraySplit_length {α : Type} (C : ℕ) (l : List α) :
    (arraySplit C l).length = C := by
  rw [arraySplit, takeDrops_length, splitSizes_length]

theorem arraySplit_group_length {α : Type} {C : ℕ} {l : List α} (hC : 0 < C)
    {g : List α} (hg : g ∈ arraySplit C l) :
    g.length = l.length / C ∨ g.length = l.length / C + 1 := by
  have hsum : (splitSizes l.length C).sum ≤ l.length :=
    le_of_eq (splitSizes_sum _ _ hC)
  have hmem : g.length ∈ (takeDrops (splitSizes l.length C) l).map List.length :=
    List.mem_map_of_mem _ hg
  rw [takeDrops_map_length _ _ hsum] at hmem
  exact splitSizes_mem hmem

theorem getD_map_lt {α β : Type} (f : α → β) :
    ∀ (l : List α) (i : ℕ), i < l.length → ∀ (d : β) (d' : α),
      (l.map f).getD i d = f (l.getD i d') := by
  intro l
  induction l with
  | nil =>
    intro i hi
    simp at hi
  | cons a t ih =>
    intro i hi d d'
    cases i with
    | zero => rfl
    | succ j =>
      simp only [List.map_cons, List.getD_cons_succ]
      exact ih j (by simpa using hi) d d'

theorem windows_lane {α : Type} (P : List (List α)) (n T c : ℕ)
    (hc : c < P.length) (hlen : (P.getD c []).length = n * T) :
    ((List.range n).map
        (fun b => (P.map (fun lane => (lane.drop (b * T)).take T)).getD c [])).flatten
      = P.getD c [] := by
  have h1 : ∀ b ∈ List.range n,
      (P.map (fun lane => (lane.drop (b * T)).take T)).getD c []
        = ((P.getD c []).drop (b * T)).take T := by
    intro b _
    exact getD_map_lt _ P c hc [] []
  rw [List.map_congr_left h1]
  exact flatten_windows T n _ hlen

/-- C1: for every non-empty list of samples with total length ℓ, every chunk
count C ≥ 1 and timestep width T ≥ 1, `_build_generator` returns a batch
count equal to ceil(ceil(ℓ/C)/T), emits exactly that many batches per epoch,
and concatenating the T-timestep windows of all yielded batches in emission
order, per chunk lane, reproduces exactly the chunk sequence obtained by
concatenating that lane's samples and post-padding with zeros (or
post-truncating) to length maxlen = num_batches × T — identically for the
feature tensors and the label tensors. -/
theorem buildGenerator_roundtrip
    (X_list : List (List (List ℚ))) (y_list : List (List ℚ))
    (batch_size timesteps input_size : ℕ) (out : GenOutput)
    (hC : 1 ≤ batch_size) (hT : 1 ≤ timesteps)
    (hgen : buildGenerator X_list y_list batch_size timesteps input_size = some out) :
    out.numBatches
        = ceilDiv (ceilDiv ((X_list.map List.length).sum) batch_size) timesteps ∧
    out.batches.length = out.numBatches ∧
    ∀ c, c < batch_size →
      ((out.batches.map (fun B => B.1.getD c [])).flatten
          = padPost (List.replicate input_size 0) (out.numBatches * timesteps)
              (((arraySplit batch_size X_list).getD c []).flatten) ∧
       (out.batches.map (fun B => B.2.getD c [])).flatten
          = (padPost 0 (out.numBatches * timesteps)
              (((arraySplit batch_size y_list).getD c []).flatten)).map (fun v => [v])) := by
  simp only [buildGenerator] at hgen
  by_cases hne : X_list.isEmpty
  · rw [if_pos hne] at hgen
    cases hgen
  · rw [if_neg hne] at hgen
    injection hgen with h
    subst h
    refine ⟨rfl, by simp, ?_⟩
    intro c hc
    constructor
    · rw [List.map_map]
      have hlane := windows_lane
        ((arraySplit batch_size X_list).map
          (fun chunk => padPost (List.replicate input_size 0)
            (ceilDiv (ceilDiv ((X_list.map List.length).sum) batch_size) timesteps
              * timesteps) chunk.flatten))
        (ceilDiv (ceilDiv ((X_list.map List.length).sum) batch_size) timesteps)
        timesteps c
        (by rw [List.length_map, arraySplit_length]; exact hc)
        (by
          rw [getD_map_lt _ _ c (by rw [arraySplit_length]; exact hc) [] []]
          exact padPost_length _ _ _)
      rw [getD_map_lt _ _ c (by rw [arraySplit_length]; exact hc) [] []] at hlane
      exact hlane
    · rw [List.map_map]
      have hlane := windows_lane
        ((arraySplit batch_size y_list).map
          (fun chunk => (padPost 0
            (ceilDiv (ceilDiv ((X_list.map List.length).sum) batch_size) timesteps
              * timesteps) chunk.flatten).map (fun v => [v])))
        (ceilDiv (ceilDiv ((X_list.map List.length).sum) batch_size) timesteps)
        timesteps c
        (by rw [List.length_map, arraySplit_length]; exact hc)
        (by
          rw [getD_map_lt _ _ c (by rw [arraySplit_length]; exact hc) [] []]
          rw [List.length_map]
          exact padPost_length _ _ _)
      rw [getD_map_lt _ _ c (by rw [arraySplit_length]; exact hc) [] []] at hlane
      exact hlane

theorem buildGenerator_roundtrip_witness :
    (1 ≤ 2 ∧ 1 ≤ 2 ∧
      buildGenerator [[[(1:ℚ)], [2], [3]]] [[(1:ℚ), 0, 1]] 2 2 1
        = some (GenOutput.mk 1
            [([[[1], [2]], [[0], [0]]], [[[1], [0]], [[0], [0]]])])) ∧
    (GenOutput.mk 1
        [([[[(1:ℚ)], [2]], [[0], [0]]], [[[(1:ℚ)], [0]], [[0], [0]]])]).numBatches
      = ceilDiv (ceilDiv (([[[(1:ℚ)], [2], [3]]].map List.length).sum) 2) 2 := by
  have hg : buildGenerator [[[(1:ℚ)], [2], [3]]] [[(1:ℚ), 0, 1]] 2 2 1
      = some (GenOutput.mk 1
          [([[[1], [2]], [[0], [0]]], [[[1], [0]], [[0], [0]]])]) := by decide
  exact ⟨⟨by decide, by decide, hg⟩,
    (buildGenerator_roundtrip _ _ _ _ _ _ (by decide) (by decide) hg).1⟩

/-- C8: for all N ≥ 0 samples split into C ≥ 1 contiguous chunk groups by the
batch generator's `np.array_split`, there are exactly C groups and the sizes
of any two groups differ by at most 1. -/
theorem arraySplit_balanced {α : Type} (l : List α) (C : ℕ) (hC : 1 ≤ C)
    (g1 g2 : List α) (h1 : g1 ∈ arraySplit C l) (h2 : g2 ∈ arraySplit C l) :
    (arraySplit C l).length = C ∧ g1.length ≤ g2.length + 1 := by
  have e1 := arraySplit_group_length hC h1
  have e2 := arraySplit_group_length hC h2
  exact ⟨arraySplit_length C l, by omega⟩

theorem arraySplit_balanced_witness :
    (1 ≤ 3 ∧ [(1:ℚ), 2] ∈ arraySplit 3 [(1:ℚ), 2, 3, 4, 5]
      ∧ [(5:ℚ)] ∈ arraySplit 3 [(1:ℚ), 2, 3, 4, 5]) ∧
    ((arraySplit 3 [(1:ℚ), 2, 3, 4, 5]).length = 3
      ∧ [(1:ℚ), 2].length ≤ [(5:ℚ)].length + 1) := by
  refine ⟨⟨by decide, by decide, by decide⟩, ?_⟩
  exact arraySplit_balanced [(1:ℚ), 2, 3, 4, 5] 3 (by decide) _ _
    (by decide) (by decide)

/-- C10: for every non-empty list l and every integer n (including n ≥ len(l)
and n < 0), `rotate(l, n)` is a cyclic rotation of l of the same length,
`rotate(l, n) = rotate(l, n mod len(l))`, `rotate(l, 0) = l`, and the
multiset of elements is preserved (the result is a permutation of l). -/
theorem rotate_spec {α : Type} (l : List α) (n : ℤ) (hl : l ≠ []) :
    (rotate l n).length = l.length ∧
    (∃ m, m < l.length ∧ rotate l n = l.drop m ++ l.take m) ∧
    rotate l n = rotate l (n % (l.length : ℤ)) ∧
    rotate l 0 = l ∧
    (rotate l n).Perm l := by
  have hpos : (0 : ℤ) < (l.length : ℤ) := by
    have := List.length_pos.mpr hl
    exact_mod_cast this
  have hmlt : (n % (l.length : ℤ)).toNat < l.length := by
    have h1 : 0 ≤ n % (l.length : ℤ) := Int.emod_nonneg n (by omega)
    have h2 : n % (l.length : ℤ) < (l.length : ℤ) := Int.emod_lt_of_pos n hpos
    omega
  refine ⟨?_, ⟨_, hmlt, rfl⟩, ?_, ?_, ?_⟩
  · simp only [rotate, List.length_append, List.length_drop, List.length_take]
    omega
  · simp only [rotate]
    rw [Int.emod_emod_of_dvd n (dvd_refl ((l.length : ℤ)))]
  · simp [rotate]
  · have hr : rotate l n
        = l.drop ((n % (l.length : ℤ)).toNat) ++ l.take ((n % (l.length : ℤ)).toNat) :=
      rfl
    rw [hr]
    exact (List.perm_append_comm).trans (by rw [List.take_append_drop])

theorem rotate_spec_witness :
    (([(1:ℚ), 2, 3] : List ℚ) ≠ [] ∧ rotate [(1:ℚ), 2, 3] (-4) = [3, 1, 2]) ∧
    (rotate [(1:ℚ), 2, 3] (-4)).length = ([(1:ℚ), 2, 3] : List ℚ).length := by
  exact ⟨⟨by decide, by decide⟩, (rotate_spec [(1:ℚ), 2, 3] (-4) (by decide)).1⟩

/-- C4: in external-validation mode, for every non-empty list of validation
sequences of total concatenated length M, feature width F and chunk count C,
`_repeat_all_to_fill_batch_size` produces a single static feature tensor of
shape (C, M, F) in which every chunk lane equals the concatenation of all
validation sequences in order (all C lanes identical), with the matching
label tensor of shape (C, M, 1) built the same way. -/
theorem repeatAll_spec (X_sequences : List (List (List ℚ)))
    (y_sequences : List (List ℚ)) (batch_size F : ℕ)
    (hne : X_sequences ≠ [])
    (hF : ∀ X ∈ X_sequences, ∀ row ∈ X, row.length = F)
    (hM : (y_sequences.map List.length).sum = (X_sequences.map List.length).sum) :
    (repeatAllToFillBatchSize X_sequences y_sequences batch_size).1.length
        = batch_size ∧
    (∀ lane ∈ (repeatAllToFillBatchSize X_sequences y_sequences batch_size).1,
      lane = X_sequences.flatten ∧
      lane.length = (X_sequences.map List.length).sum ∧
      ∀ row ∈ lane, row.length = F) ∧
    (repeatAllToFillBatchSize X_sequences y_sequences batch_size).2.length
        = batch_size ∧
    (∀ lane ∈ (repeatAllToFillBatchSize X_sequences y_sequences batch_size).2,
      lane = y_sequences.flatten.map (fun v => [v]) ∧
      lane.length = (X_sequences.map List.length).sum ∧
      ∀ entry ∈ lane, entry.length = 1) := by
  refine ⟨by simp [repeatAllToFillBatchSize], ?_,
    by simp [repeatAllToFillBatchSize], ?_⟩
  · intro lane hl
    simp only [repeatAllToFillBatchSize, List.mem_map, List.mem_range] at hl
    obtain ⟨i, _, hlane⟩ := hl
    subst hlane
    refine ⟨rfl, List.length_flatten _, ?_⟩
    intro row hr
    obtain ⟨X, hX, hrow⟩ := List.mem_flatten.mp hr
    exact hF X hX row hrow
  · intro lane hl
    simp only [repeatAllToFillBatchSize, List.mem_map, List.mem_range] at hl
    obtain ⟨i, _, hlane⟩ := hl
    subst hlane
    refine ⟨rfl, ?_, ?_⟩
    · rw [List.length_map, List.length_flatten, hM]
    · intro entry he
      obtain ⟨v, _, hv⟩ := List.mem_map.mp he
      rw [← hv]
      rfl

theorem repeatAll_spec_witness :
    (([[[(1:ℚ)], [2], [3]], [[4], [5]]] : List (List (List ℚ))) ≠ [] ∧
     (∀ X ∈ ([[[(1:ℚ)], [2], [3]], [[4], [5]]] : List (List (List ℚ))),
        ∀ row ∈ X, row.length = 1) ∧
     (([[1, 0, 1], [0, 0]] : List (List ℚ)).map List.length).sum
        = (([[[(1:ℚ)], [2], [3]], [[4], [5]]] : List (List (List ℚ))).map
            List.length).sum) ∧
    (repeatAllToFillBatchSize [[[(1:ℚ)], [2], [3]], [[4], [5]]]
        [[1, 0, 1], [0, 0]] 2).1.length = 2 := by
  refine ⟨⟨by decide, by decide, by decide⟩, ?_⟩
  exact (repeatAll_spec [[[(1:ℚ)], [2], [3]], [[4], [5]]] [[1, 0, 1], [0, 0]] 2 1
    (by decide) (by decide) (by decide)).1

theorem countSamples_finite (k : ℚ) :
    ∀ (ys : List (List ℚ)), (∀ y ∈ ys, y ≠ []) →
      countSamples ys k
        = .finite ((ys.map (fun y => ((y.count k : ℚ) / (y.length : ℚ)))).sum) := by
  intro ys
  induction ys with
  | nil =>
    intro _
    rfl
  | cons y t ih =>
    intro h
    have hy : y ≠ [] := h y (by simp)
    have ht : ∀ z ∈ t, z ≠ [] := fun z hz => h z (by simp [hz])
    have step : countSamples (y :: t) k = npAdd (npMean y k) (countSamples t k) := rfl
    have hmean : npMean y k = .finite ((y.count k : ℚ) / (y.length : ℚ)) := by
      simp [npMean, List.length_eq_zero, hy]
    rw [step, ih ht, hmean]
    simp [npAdd]

/-- C2: when `weighted` is set in fit, the positive weight is computed as
(sum over sequences of the fraction of labels equal to 0) divided by
(sum over sequences of the fraction of labels equal to 1) — per-sequence
mean fractions, not pooled raw counts. -/
theorem fit_weighted_per_sequence_fractions
    (X0 : List (List ℚ)) (Xrest : List (List (List ℚ)))
    (y_list : List (List ℚ)) (pw : Option ℚ)
    (hpw : pyTruthy pw = false)
    (hne : ∀ y ∈ y_list, y ≠ [])
    (hpos : (y_list.map (fun y => ((y.count (1:ℚ) : ℚ) / (y.length : ℚ)))).sum ≠ 0) :
    fitCheck (.isList (X0 :: Xrest)) (.isList y_list) true pw
      = .ok ((X0.headD []).length,
          some (.finite
            ((y_list.map (fun y => ((y.count (0:ℚ) : ℚ) / (y.length : ℚ)))).sum
              / (y_list.map (fun y => ((y.count (1:ℚ) : ℚ) / (y.length : ℚ)))).sum))) := by
  simp only [fitCheck, hpw, if_true, Bool.false_eq_true, if_false]
  rw [countSamples_finite 0 y_list hne, countSamples_finite 1 y_list hne]
  simp [npDiv, hpos]

theorem fit_weighted_per_sequence_fractions_witness :
    (pyTruthy none = false ∧
     (∀ y ∈ ([[0, 1], [1, 1], [0, 0]] : List (List ℚ)), y ≠ []) ∧
     (([[0, 1], [1, 1], [0, 0]] : List (List ℚ)).map
        (fun y => ((y.count (1:ℚ) : ℚ) / (y.length : ℚ)))).sum ≠ 0) ∧
    fitCheck (.isList [[[5]]]) (.isList [[0, 1], [1, 1], [0, 0]]) true none
      = .ok (1,
          some (.finite
            ((([[0, 1], [1, 1], [0, 0]] : List (List ℚ)).map
                (fun y => ((y.count (0:ℚ) : ℚ) / (y.length : ℚ)))).sum
              / (([[0, 1], [1, 1], [0, 0]] : List (List ℚ)).map
                (fun y => ((y.count (1:ℚ) : ℚ) / (y.length : ℚ)))).sum))) := by
  have hpos : (([[0, 1], [1, 1], [0, 0]] : List (List ℚ)).map
      (fun y => ((y.count (1:ℚ) : ℚ) / (y.length : ℚ)))).sum ≠ 0 := by
    norm_num [List.count_cons, List.count_nil]
  exact ⟨⟨rfl, by decide, hpos⟩,
    fit_weighted_per_sequence_fractions [[5]] [] [[0, 1], [1, 1], [0, 0]] none
      rfl (by decide) hpos⟩

/-- C3 as stated is refuted by Python truthiness: supplying the explicit
value `positive_weight = 0` together with `weighted=true` does not raise —
`if positive_weight:` is false for 0, so fit proceeds to compute the
automatic weight (here 1.0) and build the models. -/
theorem fit_weighted_zero_pw_counterexample :
    fitCheck (.isList [[[5]]]) (.isList [[(0:ℚ), 1]]) true (some 0)
      = .ok (1, some (.finite 1)) := by
  have h1 : countSamples [[(0:ℚ), 1]] 0 = .finite (1 / 2) := by
    rw [countSamples_finite 0 [[(0:ℚ), 1]] (by decide)]
    norm_num [List.count_cons, List.count_nil]
  have h2 : countSamples [[(0:ℚ), 1]] 1 = .finite (1 / 2) := by
    rw [countSamples_finite 1 [[(0:ℚ), 1]] (by decide)]
    norm_num [List.count_cons, List.count_nil]
  simp only [fitCheck, pyTruthy]
  norm_num [h1, h2, npDiv]

/-- C3 amended: for every truthy (non-None, nonzero) `positive_weight`
supplied together with `weighted=true`, fit raises the ValueError before
computing any automatic weight or building any model. -/
theorem fit_weighted_with_truthy_positive_weight
    (X_list : List (List (List ℚ))) (y_list : List (List ℚ)) (pw : Option ℚ)
    (hpw : pyTruthy pw = true) :
    fitCheck (.isList X_list) (.isList y_list) true pw
      = .error
          (.valueError "Positive weight cannot be specified together with weighted=true") := by
  simp [fitCheck, hpw]

theorem fit_weighted_with_truthy_positive_weight_witness :
    pyTruthy (some 2) = true ∧
    fitCheck (.isList ([] : List (List (List ℚ)))) (.isList []) true (some 2)
      = .error
          (.valueError "Positive weight cannot be specified together with weighted=true") := by
  exact ⟨by decide,
    fit_weighted_with_truthy_positive_weight [] [] (some 2) (by decide)⟩

/-- C7: with `weighted` requested and zero positive label positions, fit does
NOT raise — `_count_samples` returns 0.0 for the positives and the numpy
float division num_neg / num_pos silently yields +inf (only a
RuntimeWarning), which is then used as the positive weight. -/
theorem fit_weighted_zero_positives_inf :
    fitCheck (.isList [[[(1:ℚ)]]]) (.isList [[(0:ℚ)]]) true none
      = .ok (1, some .inf) := by
  have h1 : countSamples [[(0:ℚ)]] 0 = .finite 1 := by
    rw [countSamples_finite 0 [[(0:ℚ)]] (by decide)]
    norm_num [List.count_cons, List.count_nil]
  have h2 : countSamples [[(0:ℚ)]] 1 = .finite 0 := by
    rw [countSamples_finite 1 [[(0:ℚ)]] (by decide)]
    norm_num [List.count_cons, List.count_nil]
  simp only [fitCheck, pyTruthy]
  norm_num [h1, h2, npDiv]

/-- C6 as stated is refuted: for an empty training sample list, fit does
crash — `input_size = X_list[0].shape[1]` (rnn.py line 143) raises
IndexError before the batch-generator builder is ever reached. -/
theorem fit_empty_sample_list_counterexample :
    fitCheck (.isList []) (.isList []) false none = .error .indexError := rfl

/-- C6 amended: for an empty training sample list the batch-generator
builder returns a no-op producer and no batch count (modelled as `none`),
but a fit call with an empty sample list raises IndexError at the
`X_list[0].shape[1]` access (whenever no earlier configuration error fires),
so no model is built and no optimization step runs. -/
theorem fit_empty_sample_list (y_list : List (List ℚ))
    (batch_size timesteps input_size : ℕ) (w : Bool) (pw : Option ℚ)
    (h : ¬(w = true ∧ pyTruthy pw = true)) :
    buildGenerator [] y_list batch_size timesteps input_size = none ∧
    fitCheck (.isList []) (.isList y_list) w pw = .error .indexError := by
  refine ⟨rfl, ?_⟩
  cases w with
  | false => simp [fitCheck]
  | true =>
    have hpw : pyTruthy pw = false := by
      cases hb : pyTruthy pw
      · rfl
      · exact absurd ⟨rfl, hb⟩ h
    simp [fitCheck, hpw]

theorem fit_empty_sample_list_witness :
    (¬(false = true ∧ pyTruthy none = true)) ∧
    (buildGenerator [] [[(0:ℚ)]] 2 3 1 = none ∧
     fitCheck (.isList []) (.isList [[(0:ℚ)]]) false none = .error .indexError) := by
  exact ⟨by decide, fit_empty_sample_list [[(0:ℚ)]] 2 3 1 false none (by decide)⟩

/-- C9: for every non-list value passed as the sequence collection or the
label collection, fit raises an AttributeError, before any model
construction takes place (an `.error` result means the run never reaches
the model-building point marked by `.ok`).  The second message formats the
type of `X_list` — a verbatim quirk of rnn.py line 132. -/
theorem fit_non_list_type_error (t : String) (Xl : List (List (List ℚ)))
    (ya : PyList (List ℚ)) (w : Bool) (pw : Option ℚ) :
    fitCheck (.notList t) ya w pw
        = .error (.attributeError ("Expected X_list to be list, got " ++ t)) ∧
    fitCheck (.isList Xl) (.notList t) w pw
        = .error (.attributeError ("Expected y_list to be list, got "
            ++ pyTypeName (PyList.isList Xl))) := by
  exact ⟨rfl, rfl⟩

/-- C5: predict is deterministic and history-independent: a second predict
call on the result state of a first call over the identical sequence
returns the identical scores, and predict on B after predict on A returns
exactly what predict on B returns without the preceding call — because the
recurrent state is reset to zero before every forward pass. -/
theorem predict_deterministic {σ : Type} (self : KerasRNN σ) (m : StatefulModel σ)
    (A B : List (List ℚ)) (p : List ℚ) (self1 : KerasRNN σ)
    (hm : self.model = some m)
    (hA : predict self A = .ok (p, self1)) :
    (∃ s2, predict self1 A = .ok (p, s2)) ∧ predict self1 B = predict self B := by
  simp only [predict, hm, Except.ok.injEq, Prod.mk.injEq] at hA
  obtain ⟨hp, hs⟩ := hA
  subst hp
  subst hs
  constructor
  · exact ⟨_, rfl⟩
  · simp [predict, hm, resetStates]

theorem predict_deterministic_witness :
    ((KerasRNN.mk (some constModel)).model = some constModel ∧
     predict (KerasRNN.mk (some constModel)) [[(1:ℚ)], [2]]
       = .ok ([0, 0], KerasRNN.mk (some { constModel with state := 0 }))) ∧
    ((∃ s2, predict (KerasRNN.mk (some { constModel with state := 0 })) [[(1:ℚ)], [2]]
        = .ok ([0, 0], s2)) ∧
     predict (KerasRNN.mk (some { constModel with state := 0 })) [[(3:ℚ)]]
       = predict (KerasRNN.mk (some constModel)) [[(3:ℚ)]]) := by
  exact ⟨⟨rfl, rfl⟩,
    predict_deterministic (KerasRNN.mk (some constModel)) constModel
      [[(1:ℚ)], [2]] [[(3:ℚ)]] [0, 0] (KerasRNN.mk (some { constModel with state := 0 }))
      rfl rfl⟩

end DeepBGC
